import Mathlib

/-!
Shallow embedding of the tikv-client-cpp bridge (src/src/lib.rs) and of the
transaction/snapshot engine it delegates to.  The bridge functions
(`transaction_get`, `transaction_put`, `transaction_prewrite_primary`,
`transaction_commit_secondary`, `transaction_batch_get_for_update`,
`to_bound_range`, `transaction_scan`, `client_gc`,
`snapshot_new_with_timestamp`, `transaction_client_begin_optimistic_with_option`)
are translated from the source.  The external client crate they call is not
part of the sources, so its operations (mutation buffer, primary selection,
scan merge, backoff, gc acceptance, timestamp conversion) are modelled from
the specification, each marked `Modelled from the spec:` in its doc comment.
Keys and values are byte sequences, modelled as lists of naturals compared
lexicographically; panics are modelled as `none` / error values; the backend
verdict of a network call is abstracted as an explicit parameter.
-/

namespace TikvGlue

abbrev Key := List Nat

abbrev Value := List Nat

structure KvPair where
  key : Key
  value : Value
deriving DecidableEq, Repr

structure OptionalValue where
  is_none : Bool
  value : Value
deriving DecidableEq, Repr

structure PrewriteResult where
  key : Key
  version : Nat
deriving DecidableEq, Repr

/-- Range of a 64-bit unsigned integer, the wire type of timestamps. -/
def U64 : Nat := 2 ^ 64

/-- Modelled from the spec: a timestamp is an opaque 64-bit value with a total
order; the `from_version` / `version` conversions of the external crate's
`TimestampExt` are absent from the sources, so the timestamp is modelled as a
wrapper around its raw 64-bit version ordinal. -/
structure Timestamp where
  version_raw : Nat
deriving DecidableEq, Repr

/-- Modelled from the spec: reconstruct a timestamp from a raw 64-bit version
ordinal crossing the language boundary. -/
def Timestamp.from_version (v : Nat) : Timestamp :=
  ⟨v % U64⟩

/-- Modelled from the spec: the raw comparable ordinal of a timestamp. -/
def Timestamp.version (t : Timestamp) : Nat :=
  t.version_raw

/-- Error taxonomy visible through the bridge, reduced to the cases the
embedded operations can produce. -/
inductive Err where
  | backend
  | lockConflict
  | emptyBuffer
  | unimplemented
deriving DecidableEq, Repr

/-- Modelled from the spec: a buffered mutation is a put of a value or a
delete tombstone. -/
inductive Mutation where
  | put (v : Value)
  | del
deriving DecidableEq, Repr

/-- Modelled from the spec: the mutation buffer is an insertion-ordered
mapping from key to mutation. -/
abbrev Buffer := List (Key × Mutation)

/-- Modelled from the spec: upsert into the mutation buffer; last write per
key wins while the key keeps its original insertion position. -/
def bufferInsert : Buffer → Key → Mutation → Buffer
  | [], k, m => [(k, m)]
  | (k', m') :: rest, k, m =>
      if k' = k then (k, m) :: rest else (k', m') :: bufferInsert rest k m

/-- Lookup of a key in the mutation buffer. -/
def bufferLookup : Buffer → Key → Option Mutation
  | [], _ => none
  | (k', m) :: rest, k => if k' = k then some m else bufferLookup rest k

/-- Lookup of a key in a backend snapshot, represented as an association list
of committed key-value pairs visible at the relevant timestamp. -/
def backendLookup : List (Key × Value) → Key → Option Value
  | [], _ => none
  | (k', v) :: rest, k => if k' = k then some v else backendLookup rest k

/-- Modelled from the spec: a lock-acquisition retry policy. -/
structure Backoff where
  jitter : Bool
  base_delay : Nat
  max_delay : Nat
  attempts : Nat
deriving DecidableEq, Repr

/-- Modelled from the spec: an exponential backoff with no random jitter,
given base delay, delay cap and attempt bound. -/
def Backoff.no_jitter_backoff (base_delay max_delay attempts : Nat) : Backoff :=
  ⟨false, base_delay, max_delay, attempts⟩

/-- Modelled from the spec: the delay before the n-th retry grows from the
base delay by a multiplier of two, capped at the maximal delay. -/
def Backoff.delay (b : Backoff) (n : Nat) : Nat :=
  min (b.base_delay * 2 ^ n) b.max_delay

/-- Modelled from the spec: retry options carry a region (network) backoff
and the lock-acquisition backoff used on commit-time lock conflicts. -/
structure RetryOptions where
  region_backoff : Backoff
  lock_backoff : Backoff
deriving DecidableEq, Repr

/-- Modelled from the spec: the crate's default optimistic retry options. -/
def RetryOptions.default_optimistic : RetryOptions :=
  ⟨Backoff.no_jitter_backoff 2 500 10, Backoff.no_jitter_backoff 2 500 10⟩

/-- Modelled from the spec: transaction options fix the mode at creation and
carry the retry options. -/
structure TransactionOptions where
  pessimistic : Bool
  retry_options : RetryOptions
deriving DecidableEq, Repr

/-- Modelled from the spec: fresh optimistic transaction options. -/
def TransactionOptions.new_optimistic : TransactionOptions :=
  ⟨false, RetryOptions.default_optimistic⟩

/-- Modelled from the spec: replace the retry options of transaction
options (the crate's `retry_options` builder method). -/
def TransactionOptions.with_retry_options (o : TransactionOptions)
    (r : RetryOptions) : TransactionOptions :=
  { o with retry_options := r }

/-- Modelled from the spec: the client owns the cluster connection and the
timestamp source.  The oracle's next timestamp, the backend store contents,
the previously applied GC safepoint and whether backend communication
succeeds are abstracted as fields. -/
structure TransactionClient where
  oracle : Timestamp
  store : List (Key × Value)
  prev_safepoint : Nat
  gc_comm_ok : Bool

/-- Modelled from the spec: fetch a fresh timestamp from the source. -/
def TransactionClient.current_timestamp (c : TransactionClient) : Timestamp :=
  c.oracle

/-- Modelled from the spec: a transaction holds its start timestamp, its
local mutation buffer, the backend snapshot visible at the start timestamp,
and its options. -/
structure Transaction where
  start_ts : Timestamp
  buffer : Buffer
  backend : List (Key × Value)
  options : TransactionOptions

/-- Modelled from the spec: a snapshot is an immutable read view anchored at
a timestamp. -/
structure Snapshot where
  timestamp : Timestamp
  options : TransactionOptions
  store : List (Key × Value)

/-- Modelled from the spec: create a transaction at the given timestamp with
an empty mutation buffer and the given options. -/
def TransactionClient.new_transaction_with_options (c : TransactionClient)
    (ts : Timestamp) (o : TransactionOptions) : Transaction :=
  ⟨ts, [], c.store, o⟩

/-- Modelled from the spec: construct a read view anchored at the given
timestamp. -/
def TransactionClient.snapshot (c : TransactionClient) (ts : Timestamp)
    (o : TransactionOptions) : Snapshot :=
  ⟨ts, o, c.store⟩

/-- Modelled from the spec: gc returns whether the backend accepted and
applied the new safepoint, rejecting one that is not monotonically
increasing relative to the previous one, and fails with a backend error on
communication failure. -/
def TransactionClient.gc (c : TransactionClient) (safepoint : Timestamp) :
    Except Err Bool :=
  if c.gc_comm_ok then Except.ok (decide (c.prev_safepoint < safepoint.version))
  else Except.error Err.backend

/-- Embedding of src client_gc: convert the raw safepoint via from_version
and delegate to the client's gc. -/
def client_gc (client : TransactionClient) (safepoint : Nat) : Except Err Bool :=
  client.gc (Timestamp.from_version safepoint)

/-- Embedding of src snapshot_new_with_timestamp: reconstruct the timestamp
via from_version and anchor an optimistic snapshot there. -/
def snapshot_new_with_timestamp (client : TransactionClient) (timestamp : Nat) :
    Snapshot :=
  client.snapshot (Timestamp.from_version timestamp) TransactionOptions.new_optimistic

/-- Embedding of src current_timestamp: fetch a fresh timestamp and return
its raw version ordinal. -/
def current_timestamp (client : TransactionClient) : Nat :=
  client.current_timestamp.version

/-- Embedding of src transaction_client_begin_optimistic_with_option: build
default optimistic retry options, replace the lock backoff with a no-jitter
backoff with base 2, cap 500 and the requested attempt bound, and create the
transaction at a fresh timestamp. -/
def transaction_client_begin_optimistic_with_option (client : TransactionClient)
    (retry : Nat) : Transaction :=
  let options := TransactionOptions.new_optimistic
  let retry_opts :=
    { RetryOptions.default_optimistic with
        lock_backoff := Backoff.no_jitter_backoff 2 500 retry }
  let options := options.with_retry_options retry_opts
  client.new_transaction_with_options client.current_timestamp options

/-- Modelled from the spec: Transaction.get consults the mutation buffer
first; if the key is absent there it reads from the backend snapshot at the
transaction's start timestamp; a buffered delete yields absent. -/
def Transaction.get (tx : Transaction) (k : Key) : Option Value :=
  match bufferLookup tx.buffer k with
  | some (Mutation.put v) => some v
  | some Mutation.del => none
  | none => backendLookup tx.backend k

/-- Embedding of src transaction_get: a present value maps to an
OptionalValue with is_none false, an absent one to is_none true with an
empty value. -/
def transaction_get (tx : Transaction) (k : Key) : OptionalValue :=
  match tx.get k with
  | some v => ⟨false, v⟩
  | none => ⟨true, []⟩

/-- Modelled from the spec: put upserts into the mutation buffer and does
not touch the network. -/
def Transaction.put (tx : Transaction) (k : Key) (v : Value) : Transaction :=
  { tx with buffer := bufferInsert tx.buffer k (Mutation.put v) }

/-- Embedding of src transaction_put. -/
def transaction_put (tx : Transaction) (k : Key) (v : Value) : Transaction :=
  tx.put k v

/-- Modelled from the spec: delete records a tombstone into the mutation
buffer. -/
def Transaction.delete (tx : Transaction) (k : Key) : Transaction :=
  { tx with buffer := bufferInsert tx.buffer k Mutation.del }

/-- Embedding of src transaction_delete. -/
def transaction_delete (tx : Transaction) (k : Key) : Transaction :=
  tx.delete k

/-- Modelled from the spec: prewrite_primary selects one mutated key as the
primary, the first key in the buffer in insertion order unless the caller
supplies one explicitly, submits its prewrite to the backend, and on success
returns the primary key together with the transaction's start timestamp.
The backend verdict on the prewrite is abstracted as a parameter; an empty
buffer with no explicit primary cannot select a key and errors. -/
def Transaction.prewrite_primary (tx : Transaction) (explicit : Option Key)
    (backend_ok : Bool) : Except Err (Key × Timestamp) :=
  match explicit with
  | some k =>
      if backend_ok then Except.ok (k, tx.start_ts) else Except.error Err.lockConflict
  | none =>
      match tx.buffer with
      | [] => Except.error Err.emptyBuffer
      | (k, _) :: _ =>
          if backend_ok then Except.ok (k, tx.start_ts) else Except.error Err.lockConflict

/-- Embedding of src transaction_prewrite_primary's argument conversion: an
empty primary-key byte string maps to auto-select, a non-empty one to an
explicit primary. -/
def primaryArg (primary_key : Key) : Option Key :=
  if primary_key = [] then none else some primary_key

/-- Embedding of src transaction_prewrite_primary's result conversion: a
successful (key, timestamp) pair is flattened into a PrewriteResult carrying
the raw version ordinal. -/
def toPrewriteResult : Except Err (Key × Timestamp) → Except Err PrewriteResult
  | Except.ok (k, ts) => Except.ok ⟨k, ts.version⟩
  | Except.error e => Except.error e

/-- Embedding of src transaction_prewrite_primary. -/
def transaction_prewrite_primary (tx : Transaction) (primary_key : Key)
    (backend_ok : Bool) : Except Err PrewriteResult :=
  toPrewriteResult (tx.prewrite_primary (primaryArg primary_key) backend_ok)

/-- Lock record installed by a secondary prewrite, pointing back at the
primary key and the start timestamp. -/
structure LockRecord where
  key : Key
  primary : Key
  start_ts : Timestamp
deriving DecidableEq, Repr

/-- Modelled from the spec: prewrite_secondary submits a prewrite for every
remaining mutated key, each lock record referencing the primary key and the
start timestamp. -/
def Transaction.prewrite_secondary (tx : Transaction) (primary : Key)
    (start_ts : Timestamp) : List LockRecord :=
  (tx.buffer.filter (fun km => decide (km.1 ≠ primary))).map
    (fun km => ⟨km.1, primary, start_ts⟩)

/-- Embedding of src transaction_prewrite_secondary: reconstruct the start
timestamp via from_version and delegate. -/
def transaction_prewrite_secondary (tx : Transaction) (primary_key : Key)
    (start_ts : Nat) : List LockRecord :=
  tx.prewrite_secondary primary_key (Timestamp.from_version start_ts)

/-- Modelled from the spec: commit_secondary resolves each secondary lock at
the commit timestamp; the backend outcome of that best-effort call is
abstracted as a parameter and simply reported back. -/
def Transaction.commit_secondary (_tx : Transaction) (_commit_ts : Timestamp)
    (outcome : Except Err Unit) : Except Err Unit :=
  outcome

/-- Embedding of src transaction_commit_secondary's argument conversion: the
raw commit timestamp is reconstructed via from_version. -/
def transaction_commit_secondary_arg (commit_ts : Nat) : Timestamp :=
  Timestamp.from_version commit_ts

/-- Embedding of src transaction_commit_secondary: the backend call's
outcome is discarded and the function returns unit to the caller. -/
def transaction_commit_secondary (tx : Transaction) (commit_ts : Nat)
    (outcome : Except Err Unit) : Unit :=
  let _ := tx.commit_secondary (transaction_commit_secondary_arg commit_ts) outcome
  ()

/-- Embedding of src transaction_batch_get_for_update: the body is an
unconditional unimplemented panic (the batched pessimistic read is not
supported); the panic is modelled as an error value, so the function never
produces a successful result. -/
def transaction_batch_get_for_update (_transaction : Transaction)
    (_keys : List Key) : Except Err (List KvPair) :=
  Except.error Err.unimplemented

/-- Embedding of the FFI-shared Bound enum: across the language boundary a
Bound arrives as a raw discriminant, so values outside the three declared
tags are representable. -/
structure Bound where
  repr_val : Nat
deriving DecidableEq, Repr

/-- Discriminant of the Included tag. -/
def Bound.Included : Bound := ⟨0⟩

/-- Discriminant of the Excluded tag. -/
def Bound.Excluded : Bound := ⟨1⟩

/-- Discriminant of the Unbounded tag. -/
def Bound.Unbounded : Bound := ⟨2⟩

/-- One side of a bound range: the standard-library style bound over keys. -/
inductive OpsBound where
  | included (k : Key)
  | excluded (k : Key)
  | unbounded
deriving DecidableEq, Repr

/-- Canonical key interval: a lower and an upper bound. -/
structure BoundRange where
  lower : OpsBound
  upper : OpsBound
deriving DecidableEq, Repr

/-- Embedding of one arm of src to_bound_range: map the three declared tags
to the corresponding bound over the given key bytes; any other discriminant
panics, modelled as none. -/
def toOpsBound (k : Key) (b : Bound) : Option OpsBound :=
  if b = Bound.Included then some (OpsBound.included k)
  else if b = Bound.Excluded then some (OpsBound.excluded k)
  else if b = Bound.Unbounded then some OpsBound.unbounded
  else none

/-- Embedding of src to_bound_range: the start bound is canonicalized first,
then the end bound; a panic on either side is modelled as none. -/
def to_bound_range (start : Key) (start_bound : Bound) (stop : Key)
    (end_bound : Bound) : Option BoundRange :=
  match toOpsBound start start_bound with
  | none => none
  | some lo =>
      match toOpsBound stop end_bound with
      | none => none
      | some hi => some ⟨lo, hi⟩

/-- Satisfaction of the lower side of a range: an excluded lower bound skips
a key exactly equal to it. -/
def OpsBound.satisfiesLower (b : OpsBound) (k : Key) : Bool :=
  match b with
  | OpsBound.included l => decide (l ≤ k)
  | OpsBound.excluded l => decide (l < k)
  | OpsBound.unbounded => true

/-- Satisfaction of the upper side of a range: an included upper bound keeps
a key exactly equal to it. -/
def OpsBound.satisfiesUpper (b : OpsBound) (k : Key) : Bool :=
  match b with
  | OpsBound.included u => decide (k ≤ u)
  | OpsBound.excluded u => decide (k < u)
  | OpsBound.unbounded => true

/-- Membership of a key in a bound range. -/
def BoundRange.contains (r : BoundRange) (k : Key) : Bool :=
  r.lower.satisfiesLower k && r.upper.satisfiesUpper k

/-- Boolean lexicographic comparison of keys, used to sort scan results. -/
def keyLe (a b : Key) : Bool :=
  decide (a ≤ b)

/-- Keys produced by a scan before the limit is applied: the distinct keys
of the backend snapshot and of the mutation buffer, sorted ascending, kept
when they lie in the range and are visible through the merged view. -/
def scanSelectedKeys (tx : Transaction) (range : BoundRange) : List Key :=
  ((tx.backend.map Prod.fst ++ tx.buffer.map Prod.fst).dedup.mergeSort keyLe).filter
    (fun k => range.contains k && (tx.get k).isSome)

/-- Modelled from the spec: scan returns up to limit entries within the
range in ascending key order, reflecting the start-timestamp snapshot merged
with the locally buffered writes whose keys fall in range: buffered deletes
suppress the corresponding backend entry and buffered puts override backend
values; limit 0 is an explicit request for zero results. -/
def Transaction.scan (tx : Transaction) (range : BoundRange) (limit : Nat) :
    List KvPair :=
  ((scanSelectedKeys tx range).map
    (fun k => KvPair.mk k ((tx.get k).getD []))).take limit

/-- Embedding of src transaction_scan: canonicalize the bounds (a panic in
to_bound_range is modelled as none) and delegate to the transaction's scan. -/
def transaction_scan (tx : Transaction) (start : Key) (start_bound : Bound)
    (stop : Key) (end_bound : Bound) (limit : Nat) : Option (List KvPair) :=
  match to_bound_range start start_bound stop end_bound with
  | none => none
  | some range => some (tx.scan range limit)

/-! Helper lemmas shared by the claim theorems. -/

theorem bufferLookup_bufferInsert_self (buf : Buffer) (k : Key) (m : Mutation) :
    bufferLookup (bufferInsert buf k m) k = some m := by
  induction buf with
  | nil => simp [bufferInsert, bufferLookup]
  | cons hd tl ih =>
      obtain ⟨k', m'⟩ := hd
      by_cases h : k' = k
      · simp [bufferInsert, bufferLookup, h]
      · simp [bufferInsert, bufferLookup, h, ih]

theorem keyLe_trans (a b c : Key) (h1 : keyLe a b = true) (h2 : keyLe b c = true) :
    keyLe a c = true := by
  simp only [keyLe, decide_eq_true_eq] at h1 h2 ⊢
  exact le_trans h1 h2

theorem keyLe_total (a b : Key) : (keyLe a b || keyLe b a) = true := by
  simp only [keyLe, Bool.or_eq_true, decide_eq_true_eq]
  exact le_total a b

/-! Claim theorems. -/

/-- C1: within one transaction, get after put on the same key returns the
put value with is_none false (read-your-own-writes through the mutation
buffer), and a key absent from both the buffer and the backend snapshot
yields is_none true with an empty value. -/
theorem C1_read_your_own_writes (tx : Transaction) (k : Key) (v : Value) :
    transaction_get (transaction_put tx k v) k = ⟨false, v⟩ ∧
    (bufferLookup tx.buffer k = none → backendLookup tx.backend k = none →
      transaction_get tx k = ⟨true, []⟩) := by
  constructor
  · simp [transaction_get, transaction_put, Transaction.get, Transaction.put,
      bufferLookup_bufferInsert_self]
  · intro hbuf hback
    simp [transaction_get, Transaction.get, hbuf, hback]

/-- Witness for C1 at a concrete transaction and key. -/
theorem C1_read_your_own_writes_witness :
    transaction_get
        (transaction_put
          ⟨⟨7⟩, [], [([0], [9])], TransactionOptions.new_optimistic⟩ [1] [5]) [1] =
      ⟨false, [5]⟩ ∧
    transaction_get ⟨⟨7⟩, [], [([0], [9])], TransactionOptions.new_optimistic⟩ [2] =
      ⟨true, []⟩ := by
  have h := C1_read_your_own_writes
    ⟨⟨7⟩, [], [([0], [9])], TransactionOptions.new_optimistic⟩ [1] [5]
  have h2 := C1_read_your_own_writes
    ⟨⟨7⟩, [], [([0], [9])], TransactionOptions.new_optimistic⟩ [2] [5]
  exact ⟨h.1, h2.2 (by decide) (by decide)⟩

/-- C2: with a non-empty mutation buffer, prewrite_primary auto-selects the
first mutated key in buffer insertion order when the caller supplies no
explicit primary (empty byte string over the boundary), uses the supplied
key otherwise, and on success returns that primary key together with the
transaction's start timestamp. -/
theorem C2_prewrite_primary_selection (tx : Transaction) (k0 : Key)
    (m0 : Mutation) (rest : Buffer) (pk : Key)
    (hbuf : tx.buffer = (k0, m0) :: rest) (hpk : pk ≠ []) :
    transaction_prewrite_primary tx [] true = Except.ok ⟨k0, tx.start_ts.version⟩ ∧
    transaction_prewrite_primary tx pk true = Except.ok ⟨pk, tx.start_ts.version⟩ := by
  constructor
  · simp [transaction_prewrite_primary, primaryArg, Transaction.prewrite_primary,
      hbuf, toPrewriteResult]
  · simp [transaction_prewrite_primary, primaryArg, hpk,
      Transaction.prewrite_primary, toPrewriteResult]

/-- Witness for C2 at a concrete transaction whose buffer holds two keys. -/
theorem C2_prewrite_primary_selection_witness :
    transaction_prewrite_primary
        ⟨⟨7⟩, [([1], Mutation.put [5]), ([2], Mutation.put [6])], [],
          TransactionOptions.new_optimistic⟩ [] true =
      Except.ok ⟨[1], 7⟩ ∧
    transaction_prewrite_primary
        ⟨⟨7⟩, [([1], Mutation.put [5]), ([2], Mutation.put [6])], [],
          TransactionOptions.new_optimistic⟩ [2] true =
      Except.ok ⟨[2], 7⟩ := by
  have h := C2_prewrite_primary_selection
    ⟨⟨7⟩, [([1], Mutation.put [5]), ([2], Mutation.put [6])], [],
      TransactionOptions.new_optimistic⟩ [1] (Mutation.put [5])
    [([2], Mutation.put [6])] [2] rfl (by decide)
  exact ⟨h.1, h.2⟩

/-- C3: transaction_commit_secondary surfaces no error to the caller: it
returns unit for every commit timestamp and every backend outcome, and a
failing backend outcome yields the same caller-visible result as a
successful one. -/
theorem C3_commit_secondary_never_fails (tx : Transaction) (commit_ts : Nat)
    (outcome : Except Err Unit) (e : Err) :
    transaction_commit_secondary tx commit_ts outcome = () ∧
    transaction_commit_secondary tx commit_ts (Except.error e) =
      transaction_commit_secondary tx commit_ts (Except.ok ()) := by
  exact ⟨rfl, rfl⟩

/-- C4: a transaction begun via the retry-configuring entry point carries a
lock-acquisition backoff that is exponential with no jitter, base delay 2,
delay capped at 500, bounded to the requested number of attempts, and the
network (region) backoff is left at its default: the policy applies to lock
conflicts, not to network retries. -/
theorem C4_retry_backoff (client : TransactionClient) (r : Nat) (n : Nat) :
    (transaction_client_begin_optimistic_with_option client r).options.retry_options.lock_backoff =
      Backoff.no_jitter_backoff 2 500 r ∧
    (transaction_client_begin_optimistic_with_option client r).options.retry_options.lock_backoff.jitter = false ∧
    (transaction_client_begin_optimistic_with_option client r).options.retry_options.lock_backoff.attempts = r ∧
    (transaction_client_begin_optimistic_with_option client r).options.retry_options.lock_backoff.delay n =
      min (2 * 2 ^ n) 500 ∧
    (transaction_client_begin_optimistic_with_option client r).options.retry_options.lock_backoff.delay n ≤ 500 ∧
    (transaction_client_begin_optimistic_with_option client r).options.retry_options.region_backoff =
      RetryOptions.default_optimistic.region_backoff := by
  refine ⟨rfl, rfl, rfl, rfl, ?_, rfl⟩
  simp [transaction_client_begin_optimistic_with_option,
    TransactionClient.new_transaction_with_options, TransactionOptions.with_retry_options,
    TransactionOptions.new_optimistic, Backoff.delay, Backoff.no_jitter_backoff]

/-- C5: the batched pessimistic read is unsupported: for every transaction
and key list it yields an error and never a successful result. -/
theorem C5_batch_get_for_update_fails (tx : Transaction) (keys : List Key)
    (res : List KvPair) :
    transaction_batch_get_for_update tx keys = Except.error Err.unimplemented ∧
    transaction_batch_get_for_update tx keys ≠ Except.ok res := by
  exact ⟨rfl, by simp [transaction_batch_get_for_update]⟩

/-- C9: at the public interface an empty primary-key argument always maps to
auto-select, so the empty byte string can never be designated as the
explicit primary, while every non-empty argument passes through as the
explicit primary key. -/
theorem C9_empty_primary_is_auto_select (pk : Key) (tx : Transaction)
    (backend_ok : Bool) :
    primaryArg [] = none ∧
    (pk ≠ [] → primaryArg pk = some pk) ∧
    primaryArg pk ≠ some [] ∧
    (pk = [] → transaction_prewrite_primary tx pk backend_ok =
      toPrewriteResult (tx.prewrite_primary none backend_ok)) ∧
    (pk ≠ [] → transaction_prewrite_primary tx pk backend_ok =
      toPrewriteResult (tx.prewrite_primary (some pk) backend_ok)) := by
  refine ⟨rfl, ?_, ?_, ?_, ?_⟩
  · intro h; simp [primaryArg, h]
  · by_cases h : pk = []
    · simp [primaryArg, h]
    · simp [primaryArg, h]
  · intro h; simp [transaction_prewrite_primary, primaryArg, h]
  · intro h; simp [transaction_prewrite_primary, primaryArg, h]

/-- Witness for C9 at a concrete non-empty key. -/
theorem C9_empty_primary_is_auto_select_witness :
    primaryArg [] = none ∧
    primaryArg [3] = some [3] ∧
    transaction_prewrite_primary
        ⟨⟨7⟩, [([1], Mutation.put [5])], [], TransactionOptions.new_optimistic⟩
        [3] true =
      toPrewriteResult
        ((⟨⟨7⟩, [([1], Mutation.put [5])], [],
          TransactionOptions.new_optimistic⟩ : Transaction).prewrite_primary
          (some [3]) true) := by
  have h := C9_empty_primary_is_auto_select [3]
    ⟨⟨7⟩, [([1], Mutation.put [5])], [], TransactionOptions.new_optimistic⟩ true
  exact ⟨h.1, h.2.1 (by decide), h.2.2.2.2 (by decide)⟩

theorem toOpsBound_invalid (k : Key) (b : Bound) (h : 3 ≤ b.repr_val) :
    toOpsBound k b = none := by
  obtain ⟨n⟩ := b
  simp only [Bound.repr_val] at h
  simp only [toOpsBound, Bound.Included, Bound.Excluded, Bound.Unbounded,
    Bound.mk.injEq]
  split_ifs with h0 h1 h2
  · omega
  · omega
  · omega
  · rfl

/-- C6: to_bound_range maps each of the tags Included, Excluded, Unbounded
on either side to the corresponding range bound over the given key bytes,
and any discriminant outside these three tags fails fast (the panic is
modelled as none) instead of silently defaulting to some bound. -/
theorem C6_to_bound_range_total_on_tags (s e k : Key) (sb eb : Bound)
    (lo hi : OpsBound) :
    toOpsBound k Bound.Included = some (OpsBound.included k) ∧
    toOpsBound k Bound.Excluded = some (OpsBound.excluded k) ∧
    toOpsBound k Bound.Unbounded = some OpsBound.unbounded ∧
    (toOpsBound s sb = some lo → toOpsBound e eb = some hi →
      to_bound_range s sb e eb = some ⟨lo, hi⟩) ∧
    (3 ≤ sb.repr_val → to_bound_range s sb e eb = none) ∧
    (3 ≤ eb.repr_val → to_bound_range s sb e eb = none) := by
  refine ⟨rfl, rfl, rfl, ?_, ?_, ?_⟩
  · intro hlo hhi
    simp [to_bound_range, hlo, hhi]
  · intro hb
    simp [to_bound_range, toOpsBound_invalid s sb hb]
  · intro hb
    rw [to_bound_range]
    cases hcase : toOpsBound s sb with
    | none => rfl
    | some lo' => rw [toOpsBound_invalid e eb hb]

/-- Witness for C6: the three tags on a concrete range, and a concrete
out-of-range discriminant on either side. -/
theorem C6_to_bound_range_total_on_tags_witness :
    to_bound_range [1] Bound.Included [2] Bound.Excluded =
      some ⟨OpsBound.included [1], OpsBound.excluded [2]⟩ ∧
    to_bound_range [1] ⟨9⟩ [2] Bound.Excluded = none ∧
    to_bound_range [1] Bound.Included [2] ⟨9⟩ = none := by
  have h1 := C6_to_bound_range_total_on_tags [1] [2] [0] Bound.Included
    Bound.Excluded (OpsBound.included [1]) (OpsBound.excluded [2])
  have h2 := C6_to_bound_range_total_on_tags [1] [2] [0] ⟨9⟩ Bound.Excluded
    (OpsBound.included [1]) (OpsBound.excluded [2])
  have h3 := C6_to_bound_range_total_on_tags [1] [2] [0] Bound.Included ⟨9⟩
    (OpsBound.included [1]) (OpsBound.excluded [2])
  exact ⟨h1.2.2.2.1 (by decide) (by decide), h2.2.2.2.2.1 (by decide),
    h3.2.2.2.2.2 (by decide)⟩

/-- C8: client_gc reports as a boolean whether the backend accepted and
applied the safepoint, in particular false when the safepoint does not
increase monotonically over the previous one, and reports an error rather
than a boolean on communication failure. -/
theorem C8_gc_report (client : TransactionClient) (sp : Nat) (hsp : sp < U64) :
    (client.gc_comm_ok = true →
      client_gc client sp = Except.ok (decide (client.prev_safepoint < sp)) ∧
      (sp ≤ client.prev_safepoint → client_gc client sp = Except.ok false)) ∧
    (client.gc_comm_ok = false → client_gc client sp = Except.error Err.backend) := by
  have hv : (Timestamp.from_version sp).version = sp := by
    simp [Timestamp.from_version, Timestamp.version, Nat.mod_eq_of_lt hsp]
  constructor
  · intro hok
    constructor
    · simp [client_gc, TransactionClient.gc, hok, hv]
    · intro hle
      simp [client_gc, TransactionClient.gc, hok, hv]
      omega
  · intro hfail
    simp [client_gc, TransactionClient.gc, hfail]

/-- Witness for C8: a concrete accepted safepoint, a concrete rejected
non-monotonic safepoint, and a concrete communication failure. -/
theorem C8_gc_report_witness :
    client_gc ⟨⟨0⟩, [], 5, true⟩ 9 = Except.ok true ∧
    client_gc ⟨⟨0⟩, [], 5, true⟩ 3 = Except.ok false ∧
    client_gc ⟨⟨0⟩, [], 5, false⟩ 9 = Except.error Err.backend := by
  have h1 := C8_gc_report ⟨⟨0⟩, [], 5, true⟩ 9 (by norm_num [U64])
  have h2 := C8_gc_report ⟨⟨0⟩, [], 5, true⟩ 3 (by norm_num [U64])
  have h3 := C8_gc_report ⟨⟨0⟩, [], 5, false⟩ 9 (by norm_num [U64])
  refine ⟨?_, (h2.1 rfl).2 (by decide), h3.2 rfl⟩
  have := (h1.1 rfl).1
  simpa using this

/-- C10: raw 64-bit version ordinals round-trip through the timestamp
conversion at every boundary function: the reconstructed timestamp's version
equals the input, snapshot_new_with_timestamp anchors its snapshot there,
every secondary lock carries it, the commit-secondary argument conversion
preserves it, and client_gc reconstructs its safepoint the same way. -/
theorem C10_version_roundtrip (v : Nat) (hv : v < U64)
    (client : TransactionClient) (tx : Transaction) (pk : Key) :
    (Timestamp.from_version v).version = v ∧
    (snapshot_new_with_timestamp client v).timestamp = Timestamp.from_version v ∧
    (snapshot_new_with_timestamp client v).timestamp.version = v ∧
    transaction_prewrite_secondary tx pk v =
      tx.prewrite_secondary pk (Timestamp.from_version v) ∧
    (∀ lr ∈ transaction_prewrite_secondary tx pk v, lr.start_ts.version = v) ∧
    transaction_commit_secondary_arg v = Timestamp.from_version v ∧
    (transaction_commit_secondary_arg v).version = v ∧
    client_gc client v = client.gc (Timestamp.from_version v) := by
  have hv' : (Timestamp.from_version v).version = v := by
    simp [Timestamp.from_version, Timestamp.version, Nat.mod_eq_of_lt hv]
  refine ⟨hv', rfl, hv', rfl, ?_, rfl, hv', rfl⟩
  intro lr hlr
  rw [transaction_prewrite_secondary, Transaction.prewrite_secondary] at hlr
  rcases List.mem_map.mp hlr with ⟨km, _, rfl⟩
  exact hv'

/-- Witness for C10 at version 7 with a concrete client and transaction. -/
theorem C10_version_roundtrip_witness :
    (Timestamp.from_version 7).version = 7 ∧
    (snapshot_new_with_timestamp ⟨⟨0⟩, [], 0, true⟩ 7).timestamp.version = 7 ∧
    transaction_prewrite_secondary
        ⟨⟨7⟩, [([1], Mutation.put [5]), ([2], Mutation.put [6])], [],
          TransactionOptions.new_optimistic⟩ [1] 7 =
      (⟨⟨7⟩, [([1], Mutation.put [5]), ([2], Mutation.put [6])], [],
        TransactionOptions.new_optimistic⟩ : Transaction).prewrite_secondary
        [1] (Timestamp.from_version 7) ∧
    (transaction_commit_secondary_arg 7).version = 7 := by
  have h := C10_version_roundtrip 7 (by norm_num [U64]) ⟨⟨0⟩, [], 0, true⟩
    ⟨⟨7⟩, [([1], Mutation.put [5]), ([2], Mutation.put [6])], [],
      TransactionOptions.new_optimistic⟩ [1]
  exact ⟨h.1, h.2.2.1, h.2.2.2.1, h.2.2.2.2.2.2.1⟩

theorem scanSelectedKeys_pairwise_lt (tx : Transaction) (range : BoundRange) :
    (scanSelectedKeys tx range).Pairwise (fun a b => a < b) := by
  set candidates := (tx.backend.map Prod.fst ++ tx.buffer.map Prod.fst).dedup with hc
  have hsorted : (candidates.mergeSort keyLe).Pairwise (fun a b => keyLe a b = true) :=
    List.sorted_mergeSort keyLe_trans keyLe_total candidates
  have hle : (candidates.mergeSort keyLe).Pairwise (fun a b : Key => a ≤ b) := by
    refine hsorted.imp ?_
    intro a b h
    simpa [keyLe] using h
  have hnd : (candidates.mergeSort keyLe).Nodup :=
    (List.mergeSort_perm candidates keyLe).nodup_iff.mpr (List.nodup_dedup _)
  have hlt : (candidates.mergeSort keyLe).Pairwise (fun a b : Key => a < b) :=
    List.Sorted.lt_of_le hle hnd
  exact List.Pairwise.sublist (List.filter_sublist _) hlt

theorem scan_map_key (tx : Transaction) (range : BoundRange) (limit : Nat) :
    (tx.scan range limit).map KvPair.key = (scanSelectedKeys tx range).take limit := by
  rw [Transaction.scan, ← List.map_take, List.map_map]
  have : (KvPair.key ∘ fun k => KvPair.mk k ((tx.get k).getD [])) = id := rfl
  rw [this, List.map_id]

theorem scan_mem_spec (tx : Transaction) (range : BoundRange) (limit : Nat)
    (p : KvPair) (hp : p ∈ tx.scan range limit) :
    tx.get p.key = some p.value ∧ range.contains p.key = true := by
  rw [Transaction.scan] at hp
  have hp' := (List.take_sublist _ _).subset hp
  rcases List.mem_map.mp hp' with ⟨k, hk, rfl⟩
  obtain ⟨_, hcond⟩ := List.mem_filter.mp hk
  rw [Bool.and_eq_true] at hcond
  obtain ⟨hcont, hsome⟩ := hcond
  cases hg : tx.get k with
  | none => rw [hg] at hsome; simp at hsome
  | some v => exact ⟨by simp [hg], hcont⟩

/-- C7: a scan through the bridge canonicalizes its bounds and returns at
most limit pairs, with strictly ascending keys, every returned pair agreeing
with the transaction's merged view (so buffered puts override backend
values), every returned key lying in the range, buffered deletes never
appearing, and limit 0 returning the empty sequence. -/
theorem C7_scan_semantics (tx : Transaction) (start stop : Key)
    (start_bound end_bound : Bound) (limit : Nat) (range : BoundRange)
    (hr : to_bound_range start start_bound stop end_bound = some range) :
    transaction_scan tx start start_bound stop end_bound limit =
      some (tx.scan range limit) ∧
    (tx.scan range limit).length ≤ limit ∧
    ((tx.scan range limit).map KvPair.key).Pairwise (fun a b => a < b) ∧
    (∀ p ∈ tx.scan range limit,
      tx.get p.key = some p.value ∧ range.contains p.key = true) ∧
    (∀ k v, bufferLookup tx.buffer k = some (Mutation.put v) →
      ∀ p ∈ tx.scan range limit, p.key = k → p.value = v) ∧
    (∀ k, bufferLookup tx.buffer k = some Mutation.del →
      ∀ p ∈ tx.scan range limit, p.key ≠ k) ∧
    tx.scan range 0 = [] := by
  refine ⟨?_, ?_, ?_, ?_, ?_, ?_, ?_⟩
  · simp [transaction_scan, hr]
  · rw [Transaction.scan]
    exact List.length_take_le limit _
  · rw [scan_map_key]
    exact List.Pairwise.sublist (List.take_sublist _ _)
      (scanSelectedKeys_pairwise_lt tx range)
  · exact fun p hp => scan_mem_spec tx range limit p hp
  · intro k v hput p hp hkey
    have hview := (scan_mem_spec tx range limit p hp).1
    rw [hkey] at hview
    rw [Transaction.get, hput] at hview
    exact (Option.some.injEq _ _).mp hview.symm
  · intro k hdel p hp hkey
    have hview := (scan_mem_spec tx range limit p hp).1
    rw [hkey] at hview
    rw [Transaction.get, hdel] at hview
    exact Option.noConfusion hview
  · rw [Transaction.scan]
    exact List.take_zero _

/-- Witness for C7 at a concrete transaction whose buffer deletes one
backend key and puts a fresh one, over an unbounded range. -/
theorem C7_scan_semantics_witness :
    transaction_scan
        ⟨⟨7⟩, [([2], Mutation.del), ([3], Mutation.put [30])],
          [([1], [10]), ([2], [20])], TransactionOptions.new_optimistic⟩
        [] Bound.Unbounded [] Bound.Unbounded 5 =
      some ((⟨⟨7⟩, [([2], Mutation.del), ([3], Mutation.put [30])],
        [([1], [10]), ([2], [20])], TransactionOptions.new_optimistic⟩ :
          Transaction).scan ⟨OpsBound.unbounded, OpsBound.unbounded⟩ 5) ∧
    ((⟨⟨7⟩, [([2], Mutation.del), ([3], Mutation.put [30])],
      [([1], [10]), ([2], [20])], TransactionOptions.new_optimistic⟩ :
        Transaction).scan ⟨OpsBound.unbounded, OpsBound.unbounded⟩ 5).length ≤ 5 ∧
    (((⟨⟨7⟩, [([2], Mutation.del), ([3], Mutation.put [30])],
      [([1], [10]), ([2], [20])], TransactionOptions.new_optimistic⟩ :
        Transaction).scan ⟨OpsBound.unbounded, OpsBound.unbounded⟩ 5).map
      KvPair.key).Pairwise (fun a b => a < b) ∧
    (∀ p ∈ (⟨⟨7⟩, [([2], Mutation.del), ([3], Mutation.put [30])],
      [([1], [10]), ([2], [20])], TransactionOptions.new_optimistic⟩ :
        Transaction).scan ⟨OpsBound.unbounded, OpsBound.unbounded⟩ 5,
      p.key ≠ [2]) ∧
    (⟨⟨7⟩, [([2], Mutation.del), ([3], Mutation.put [30])],
      [([1], [10]), ([2], [20])], TransactionOptions.new_optimistic⟩ :
        Transaction).scan ⟨OpsBound.unbounded, OpsBound.unbounded⟩ 0 = [] := by
  have h := C7_scan_semantics
    ⟨⟨7⟩, [([2], Mutation.del), ([3], Mutation.put [30])],
      [([1], [10]), ([2], [20])], TransactionOptions.new_optimistic⟩
    [] [] Bound.Unbounded Bound.Unbounded 5
    ⟨OpsBound.unbounded, OpsBound.unbounded⟩ (by decide)
  exact ⟨h.1, h.2.1, h.2.2.1, h.2.2.2.2.2.1 [2] (by decide), h.2.2.2.2.2.2⟩

/-- Witness for C5 at a concrete transaction and key list. -/
theorem C5_batch_get_for_update_fails_witness :
    transaction_batch_get_for_update
        ⟨⟨7⟩, [], [], TransactionOptions.new_optimistic⟩ [[1]] =
      Except.error Err.unimplemented ∧
    transaction_batch_get_for_update
        ⟨⟨7⟩, [], [], TransactionOptions.new_optimistic⟩ [[1]] ≠
      Except.ok [] := by
  have h := C5_batch_get_for_update_fails
    ⟨⟨7⟩, [], [], TransactionOptions.new_optimistic⟩ [[1]] []
  exact ⟨h.1, h.2⟩
